import Mathlib

/-!
Verification development for `src/template/build_deck.py`, the static
slide-deck build step (navigation footers, auto script block, index page,
print page).

The Python source is embedded shallowly:

* Filesystem paths are modelled as lists of path components relative to the
  deck root `ROOT` (the absolute prefix of `ROOT` is shared by every path the
  program manipulates and cancels inside `posixpath.relpath`, so it is
  elided; image paths produced for `print.html` are likewise emitted without
  the machine-specific absolute prefix of `ROOT`).
* Text is modelled as `String` / `List Char`; the regular-expression
  operations of the source are hand-compiled into first-order scanning
  functions over `List Char` that implement the leftmost-match semantics of
  the specific patterns used by the source. The compilation is exact for
  text in which HTML attribute values contain no `"` or `>` characters and
  replacement strings contain no backslash (on other inputs the Python
  backtracking engine, or the escape processing of `re.sub` templates, can
  diverge from the scanners below); `\s`, `\w` and `str.lower` are modelled
  at ASCII level.
* `raise SystemExit(msg)` becomes `Except.error msg`; the on-disk state of
  the deck becomes an association list from file name to content; the
  iteration order of the two-element candidate set in
  `remove_script_tag_by_src` (a Python `set`, unspecified order) is fixed to
  raw-then-resolved.

All definitions are executable, so every theorem can be instantiated and
evaluated on concrete inputs by `decide`.
-/

deriving instance DecidableEq for Except

namespace BuildDeck

/-! ## Character-level primitives -/

/-- Python `str.strip` / regex `\s` whitespace set (ASCII part). -/
def isPySpace (c : Char) : Bool :=
  c = ' ' || c = '\t' || c = '\n' || c = '\r' || c = '\x0b' || c = '\x0c'

/-- Regex `\w` word characters (ASCII part), used by `\b` boundaries. -/
def isWordChar (c : Char) : Bool :=
  c.isAlphanum || c = '_'

/-- Case-insensitive character comparison of `re.IGNORECASE` (ASCII part). -/
def ciEqc (a b : Char) : Bool :=
  a.toLower = b.toLower

/-- Python `str.strip()` over a character list. -/
def pyStripL (l : List Char) : List Char :=
  ((l.dropWhile isPySpace).reverse.dropWhile isPySpace).reverse

/-- Python `str.strip()`. -/
def pyStrip (s : String) : String :=
  String.mk (pyStripL s.data)

/-- Python `str.lower()` (ASCII part). -/
def pyLower (s : String) : String :=
  String.mk (s.data.map Char.toLower)

/-- Case-sensitive prefix test (`str.startswith`). -/
def startsWithL : List Char → List Char → Bool
  | _, [] => true
  | [], _ :: _ => false
  | c :: cs, p :: ps => c = p && startsWithL cs ps

/-- Case-insensitive prefix test: does the text begin with the pattern
literal, compared as by `re.IGNORECASE`? -/
def ciLead : List Char → List Char → Bool
  | _, [] => true
  | [], _ :: _ => false
  | c :: cs, p :: ps => ciEqc c p && ciLead cs ps

/-- Case-insensitive equality of two character lists. -/
def ciEqL (a b : List Char) : Bool :=
  a.map Char.toLower = b.map Char.toLower

/-- Split a character list at every occurrence of a character
(`str.split(sep)` with a one-character separator). -/
def splitOnChar (ch : Char) : List Char → List (List Char)
  | [] => [[]]
  | c :: cs =>
    let r := splitOnChar ch cs
    if c = ch then [] :: r
    else
      match r with
      | [] => [[c]]
      | h :: t => (c :: h) :: t

/-- Interleave a separator between parts (`sep.join(parts)`). -/
def joinSep (sep : List Char) : List (List Char) → List Char
  | [] => []
  | [x] => x
  | x :: y :: t => x ++ sep ++ joinSep sep (y :: t)

/-! ## Path model and `posixpath.relpath` (`rel_href`, source lines 73-75) -/

/-- Longest common prefix length of two component lists, as computed by
`os.path.commonprefix` on the two split path lists inside
`posixpath.relpath`. -/
def commonPrefixLen : List String → List String → Nat
  | a :: as, b :: bs => if a = b then commonPrefixLen as bs + 1 else 0
  | _, _ => 0

/-- Component-level core of `posixpath.relpath(path, start)`: `i` common
components are dropped, one `..` is emitted for every remaining component of
`start`. Both arguments are the already normalised component lists of the
two absolute paths (`abspath` inside `relpath` normalises its argument; the
shared absolute prefix of both paths cancels in `commonPrefixLen`, so the
lists are given relative to the deck root). -/
def relpathComps (pathC startC : List String) : List String :=
  let i := commonPrefixLen pathC startC
  List.replicate (startC.length - i) ".." ++ pathC.drop i

/-- Join a relative component list with forward slashes; an empty list means
the current directory, exactly as in `posixpath.relpath`. -/
def joinRel (l : List String) : String :=
  if l.isEmpty then "." else String.mk (joinSep ['/'] (l.map String.data))

/-- Component normalisation performed by `pathlib.Path` construction plus
the `abspath`/`normpath` inside `posixpath.relpath`: empty and `.`
components are dropped, `..` pops the previous component (the full paths are
absolute, so a `..` that reaches the root is dropped). -/
def normStep (acc : List String) (c : String) : List String :=
  if c = "" || c = "." then acc
  else if c = ".." then acc.dropLast
  else acc ++ [c]

/-- See `normStep`: fold of the normalisation over the component list. -/
def normComps (cs : List String) : List String :=
  cs.foldl normStep []

/-- Component list of a root-relative path string such as a manifest `file`
entry (`ROOT / s` in the source). -/
def splitComps (s : String) : List String :=
  normComps ((splitOnChar '/' s.data).map String.mk)

/-- A path component that the normalisation leaves untouched. -/
def cleanComp (c : String) : Prop :=
  c ≠ "" ∧ c ≠ "." ∧ c ≠ ".."

instance : DecidablePred cleanComp := fun c => by
  unfold cleanComp
  infer_instance

/-- Source `rel_href(from_path, to_path)`: the POSIX relative path from the
directory of `from_path` (its parent, hence `dropLast`) to `to_path`. Both
paths are given as component lists relative to the deck root. -/
def rel_href (fromFile toFile : List String) : String :=
  joinRel (relpathComps toFile fromFile.dropLast)

/-! ## `resolve_script_src` (source lines 120-145) -/

/-- Source constant `ABS_PREFIXES` (line 57). -/
def ABS_PREFIXES : List String :=
  ["http://", "https://", "data:", "/", "#", "mailto:", "tel:"]

/-- Test of `s.startswith(ABS_PREFIXES)`. -/
def startsWithAbs (s : String) : Bool :=
  ABS_PREFIXES.any (fun p => startsWithL s.data p.data)

/-- Full passthrough condition of `resolve_script_src`: absolute-ish prefix,
or an explicit `./` or `../` prefix. -/
def isPassthrough (s : String) : Bool :=
  startsWithAbs s || startsWithL s.data "./".data || startsWithL s.data "../".data

/-- Source `resolve_script_src(slide_path, src)` (lines 120-145). `slideFile`
is the component list of the slide file relative to the deck root. -/
def resolve_script_src (slideFile : List String) (src : String) : String :=
  let s := pyStrip src
  if s = "" then s
  else if isPassthrough s then s
  else if s.data.contains '/' then rel_href slideFile (splitComps s)
  else "./" ++ s

/-! ## Data model (`ScriptSpec`, `Slide`, deck math configuration) -/

/-- Source dataclass `ScriptSpec` (lines 59-64). -/
structure ScriptSpec where
  src : String
  type : Option String := none
  defer : Bool := false
  async_ : Bool := false
deriving DecidableEq, Repr

/-- Source dataclass `Slide` (lines 66-71). -/
structure Slide where
  file : String
  title : String
  math : Option String := none
  scripts : List ScriptSpec := []
deriving DecidableEq, Repr

/-- The deck-level `math` mapping of the manifest; only its `engine` key is
read by the source (`deck_math_cfg.get("engine")`). -/
structure DeckMathCfg where
  engine : Option String := none
deriving DecidableEq, Repr

/-! ## Math-engine selection (`choose_slide_math_engine`, lines 158-175) -/

/-- Python `x.strip().lower()`. -/
def stripLower (s : String) : String :=
  pyLower (pyStrip s)

/-- Python `repr` of an optional string, as interpolated by `!r` in the
error message of `choose_slide_math_engine` (single-quote form; strings
containing quotes are not modelled differently). -/
def pyReprOptStr : Option String → String
  | none => "None"
  | some s => "'" ++ s ++ "'"

/-- Source `choose_slide_math_engine(deck_math_cfg, slide_math)`
(lines 158-175): a non-empty slide-level value wins (disable values map to
the empty engine, unknown values are fatal), otherwise the deck-level
default is consulted and unknown deck-level values silently map to the
empty engine. -/
def choose_slide_math_engine (cfg : DeckMathCfg) (slideMath : Option String) :
    Except String String :=
  let sm := stripLower (slideMath.getD "")
  if sm ≠ "" then
    if sm ∈ ["none", "off", "false", "0"] then .ok ""
    else if sm ∈ ["katex", "tex"] then .ok "katex"
    else if sm ∈ ["mathjax", "mj"] then .ok "mathjax"
    else .error ("Unknown slide math engine: " ++ pyReprOptStr slideMath)
  else
    let de := stripLower (cfg.engine.getD "")
    if de ∈ ["katex", "tex"] then .ok "katex"
    else if de ∈ ["mathjax", "mj"] then .ok "mathjax"
    else .ok ""

/-! ## Script tags and the auto block (`script_tag`,
`build_auto_scripts_block`, lines 147-156 and 177-190) -/

/-- Source `script_tag(spec, slide_path)` (lines 147-156); note that an
empty `type` string is falsy in Python and therefore omitted. -/
def script_tag (spec : ScriptSpec) (slideFile : List String) : String :=
  let src := resolve_script_src slideFile spec.src
  let attrs : List String :=
    ["src=\"" ++ src ++ "\""]
      ++ (match spec.type with
          | some t => if t ≠ "" then ["type=\"" ++ t ++ "\""] else []
          | none => [])
      ++ (if spec.defer then ["defer"] else [])
      ++ (if spec.async_ then ["async"] else [])
  "<script " ++ String.mk (joinSep [' '] (attrs.map String.data)) ++ "></script>"

/-- Source constants `AUTO_SCRIPTS_BEGIN` / `AUTO_SCRIPTS_END`
(lines 44-45). -/
def AUTO_SCRIPTS_BEGIN : String := "<!-- AUTO-SCRIPTS:BEGIN -->"

/-- End marker of the auto block. -/
def AUTO_SCRIPTS_END : String := "<!-- AUTO-SCRIPTS:END -->"

/-- Math loader tag of `build_auto_scripts_block` (lines 180-184): one tag
for a recognised engine, none otherwise. -/
def mathLoaderTag (slideFile : List String) (engine : String) : List String :=
  if engine = "katex" then
    ["<script src=\"" ++ rel_href slideFile ["assets", "math-katex-setup.js"]
      ++ "\"></script>"]
  else if engine = "mathjax" then
    ["<script src=\"" ++ rel_href slideFile ["assets", "math-mathjax-setup.js"]
      ++ "\"></script>"]
  else []

/-- Ordered tag list of `build_auto_scripts_block`: chosen math loader first
(if any), then each declared script in manifest order. -/
def blockTags (slideFile : List String) (engine : String)
    (scripts : List ScriptSpec) : List String :=
  mathLoaderTag slideFile engine ++ scripts.map (fun sp => script_tag sp slideFile)

/-- Delimited block assembly of `build_auto_scripts_block` (lines 189-190). -/
def wrapAutoBlock (tags : List String) : String :=
  let inner :=
    if tags.isEmpty then "" else String.mk (joinSep "\n    ".data (tags.map String.data))
  AUTO_SCRIPTS_BEGIN ++ "\n    " ++ inner ++ "\n    " ++ AUTO_SCRIPTS_END

/-- Source `build_auto_scripts_block(slide_path, deck_math_cfg, slide)`
(lines 177-190). -/
def build_auto_scripts_block (slideFile : List String) (cfg : DeckMathCfg)
    (slide : Slide) : Except String String := do
  let engine ← choose_slide_math_engine cfg slide.math
  pure (wrapAutoBlock (blockTags slideFile engine slide.scripts))

/-! ## Print-page engine selection (`choose_print_math_engine`,
lines 328-335) and its loader tag (lines 357-362) -/

/-- Python `x.lower().strip()` (used in `choose_print_math_engine`). -/
def lowerStrip (s : String) : String :=
  pyStrip (pyLower s)

/-- Source `choose_print_math_engine(deck_math_cfg, slides)`
(lines 328-335). -/
def choose_print_math_engine (cfg : DeckMathCfg) (slides : List Slide) : String :=
  let deck_engine := lowerStrip (cfg.engine.getD "")
  let any_mathjax :=
    slides.any (fun s => lowerStrip (s.math.getD "") ∈ (["mathjax", "mj"] : List String))
  if any_mathjax = true ∨ deck_engine ∈ (["mathjax", "mj"] : List String) then "mathjax"
  else if deck_engine ∈ (["katex", "tex"] : List String) then "katex"
  else ""

/-- The `math_script` value of `build_print` (lines 357-362). -/
def print_math_script (engine : String) : String :=
  if engine = "katex" then
    "  <script defer src=\"assets/math-katex-setup.js\"></script>\n"
  else if engine = "mathjax" then
    "  <script defer src=\"assets/math-mathjax-setup.js\"></script>\n"
  else ""

/-! ## Manifest script declarations (`normalize_scripts`, lines 88-118) -/

/-- JSON values as loaded by `json.loads` (numbers are modelled as integers;
the manifest uses none). -/
inductive JVal where
  | jnull
  | jbool (b : Bool)
  | jnum (n : Int)
  | jstr (s : String)
  | jarr (xs : List JVal)
  | jobj (fields : List (String × JVal))

/-- Python truthiness of a JSON value. -/
def truthy : JVal → Bool
  | .jnull => false
  | .jbool b => b
  | .jnum n => n ≠ 0
  | .jstr s => s ≠ ""
  | .jarr xs => !xs.isEmpty
  | .jobj fs => !fs.isEmpty

/-- Key lookup in a JSON object (`dict.get`; manifests with duplicate keys
are not modelled). -/
def jLookup (fs : List (String × JVal)) (k : String) : Option JVal :=
  (fs.find? (fun p => p.1 == k)).map (fun p => p.2)

mutual

/-- Python `repr` of a JSON value, as interpolated by `!r` into the
`normalize_scripts` error message (single-quote strings; float formatting
not modelled). -/
def reprJ : JVal → String
  | .jnull => "None"
  | .jbool b => if b then "True" else "False"
  | .jnum n => toString n
  | .jstr s => "'" ++ s ++ "'"
  | .jarr xs => "[" ++ String.mk (joinSep ", ".data (reprJArr xs)) ++ "]"
  | .jobj fs => "\x7b" ++ String.mk (joinSep ", ".data (reprJObj fs)) ++ "\x7d"

/-- Helper of `reprJ` for array elements. -/
def reprJArr : List JVal → List (List Char)
  | [] => []
  | v :: vs => (reprJ v).data :: reprJArr vs

/-- Helper of `reprJ` for object fields. -/
def reprJObj : List (String × JVal) → List (List Char)
  | [] => []
  | (k, v) :: fs => ("'" ++ k ++ "': " ++ reprJ v).data :: reprJObj fs

end

/-- Validation of one script entry (the loop body of `normalize_scripts`,
lines 106-117): a bare string, or an object whose `src` is a string; any
other entry is fatal and the message names the entry. -/
def toScriptSpec (entry : JVal) : Except String ScriptSpec :=
  match entry with
  | .jstr s => .ok { src := s }
  | .jobj fs =>
    match jLookup fs "src" with
    | some (.jstr s) =>
      .ok { src := s
            type := (jLookup fs "type").bind (fun v =>
              match v with | .jstr t => some t | _ => none)
            defer := truthy ((jLookup fs "defer").getD (.jbool false))
            async_ := truthy ((jLookup fs "async").getD (.jbool false)) }
    | _ => .error ("Invalid script entry in deck.json: " ++ reprJ entry)
  | _ => .error ("Invalid script entry in deck.json: " ++ reprJ entry)

/-- Entry-wise validation of the raw list. -/
def toScriptSpecs : List JVal → Except String (List ScriptSpec)
  | [] => .ok []
  | v :: vs => do
    let s ← toScriptSpec v
    let rest ← toScriptSpecs vs
    pure (s :: rest)

/-- Source `normalize_scripts(item)` (lines 88-118), over the `scripts` and
legacy `script` fields of a slide entry (`none` means the key is absent; a
present JSON `null` under `scripts` behaves like an absent key because
`item.get` returns `None` for it). A non-list `scripts` value is wrapped
into a one-element list (`if not isinstance(raw, list): raw = [raw]`); the
legacy field is consulted only when `scripts` is absent or null, and only
when truthy. -/
def normalize_scripts (scriptsField scriptField : Option JVal) :
    Except String (List ScriptSpec) :=
  let legacy : List JVal :=
    match scriptField with
    | some v => if truthy v then [v] else []
    | none => []
  let rawL : List JVal :=
    match scriptsField with
    | some .jnull => legacy
    | some (.jarr xs) => xs
    | some w => [w]
    | none => legacy
  toScriptSpecs rawL

/-! ## Leftmost-match scanners for the fixed patterns of the source

Each regular expression of the source operates on one of three shapes:
a case-insensitive literal (`RE_AUTO_SCRIPTS` markers, `</body>`), an
open-tag region with a class word and an optional marker attribute followed
by a lazy body and a literal close tag (`RE_FOOTER`, `RE_MAIN`), or a
whitespace-padded `<script>` tag selected by its `src` value (`RE_DECKJS`,
`RE_ANY_MATH_LOADER`, `remove_script_tag_by_src`). The scanners below
implement the leftmost-match semantics of these patterns directly. -/

/-- Split at the first occurrence of a character; the separator is consumed. -/
def splitAtChar (ch : Char) : List Char → Option (List Char × List Char)
  | [] => none
  | c :: cs =>
    if c = ch then some ([], cs)
    else (splitAtChar ch cs).map (fun p => (c :: p.1, p.2))

/-- Scan helper of `splitFirstCI`; `acc` is the reversed prefix already
passed. -/
def splitFirstCIAux (pat : List Char) : List Char → List Char → Option (List Char × List Char × List Char)
  | acc, [] => if ciLead [] pat then some (acc.reverse, [], []) else none
  | acc, c :: cs =>
    if ciLead (c :: cs) pat then
      some (acc.reverse, (c :: cs).take pat.length, (c :: cs).drop pat.length)
    else splitFirstCIAux pat (c :: acc) cs

/-- Leftmost case-insensitive occurrence of a literal pattern: returns the
text before the match, the matched slice (original case preserved, as kept
by `re` match groups), and the text after it. -/
def splitFirstCI (pat t : List Char) : Option (List Char × List Char × List Char) :=
  splitFirstCIAux pat [] t

/-- A case-insensitive occurrence of `word` with `\b` boundaries on both
sides; `prev` is the character immediately before the scanned text (both
markers the source looks for sit between non-word delimiters, so an
occurrence flush with either end of the scanned text is word-bounded). -/
def hasWordCI (word : List Char) : Char → List Char → Bool
  | _, [] => false
  | prev, c :: cs =>
    (!isWordChar prev && ciLead (c :: cs) word &&
      (match (c :: cs).drop word.length with
       | [] => true
       | d :: _ => !isWordChar d))
    || hasWordCI word c cs

/-- Scan of an open-tag interior `w` for `\bclass="v"` whose value `v`
contains the word-bounded `classWord`, followed after the closing quote by a
word-bounded required attribute when `req` is given (the attribute order
imposed by `RE_FOOTER`). `prev` is the character before the scanned text. -/
def attrsOkAux (classWord : List Char) (req : Option (List Char)) : Char → List Char → Bool
  | _, [] => false
  | prev, c :: cs =>
    (!isWordChar prev && ciLead (c :: cs) "class=\"".data &&
      (match splitAtChar '"' ((c :: cs).drop 7) with
       | some (v, rest) =>
         hasWordCI classWord '"' v &&
           (match req with
            | none => true
            | some a => hasWordCI a '"' rest)
       | none => false))
    || attrsOkAux classWord req c cs

/-- The shape of `RE_FOOTER` / `RE_MAIN`: open tag with class word and
optional marker attribute, lazy body, literal close tag. -/
structure RegionPat where
  tagLit : List Char
  lastC : Char
  classWord : List Char
  req : Option (List Char)
  closeLit : List Char

/-- Pattern of `RE_FOOTER` (source lines 34-37). -/
def RE_FOOTER_pat : RegionPat :=
  ⟨"<footer".data, 'r', "slide-nav".data, some "data-auto-nav".data, "</footer>".data⟩

/-- Pattern of `RE_MAIN` (source lines 30-33). -/
def RE_MAIN_pat : RegionPat :=
  ⟨"<main".data, 'n', "slide-body".data, none, "</main>".data⟩

/-- Match of the open-tag group at the head of `t`: the tag literal, then
the interior up to the first `>` (attribute values are assumed free of `"`
and `>`, under which the backtracking search of the Python engine picks
exactly this extent), which must pass the attribute checks. Returns the
length of the open-tag match. -/
def openTagAt (P : RegionPat) (t : List Char) : Option Nat :=
  if ciLead t P.tagLit then
    match splitAtChar '>' (t.drop P.tagLit.length) with
    | some (w, _) =>
      if attrsOkAux P.classWord P.req P.lastC w then
        some (P.tagLit.length + w.length + 1)
      else none
    | none => none
  else none

/-- Full region match at the head of `t`: open tag, then the lazy body up to
the first close literal. Returns open tag, inner body, matched close tag and
the remaining text. -/
def regionMatchAt (P : RegionPat) (t : List Char) :
    Option (List Char × List Char × List Char × List Char) :=
  match openTagAt P t with
  | none => none
  | some k =>
    match splitFirstCI P.closeLit (t.drop k) with
    | none => none
    | some (inner, cls, post) => some (t.take k, inner, cls, post)

/-- Scan helper of `findRegion`; `acc` is the reversed prefix. -/
def findRegionAux (P : RegionPat) : List Char → List Char →
    Option (List Char × List Char × List Char × List Char × List Char)
  | _, [] => none
  | acc, c :: cs =>
    match regionMatchAt P (c :: cs) with
    | some (opn, inner, cls, post) => some (acc.reverse, opn, inner, cls, post)
    | none => findRegionAux P (c :: acc) cs

/-- Leftmost region match (`RE_FOOTER.search` / `RE_MAIN.search`): the text
before the match, the open tag, the inner body, the matched close tag, and
the text after the match. -/
def findRegion (P : RegionPat) (t : List Char) :
    Option (List Char × List Char × List Char × List Char × List Char) :=
  findRegionAux P [] t

/-- Fuelled core of `footerSubAll`; one fuel unit per replaced match, which
`t.length` always covers because every match consumes at least the open
tag. -/
def footerSubAux (nav : List Char) : Nat → List Char → List Char
  | 0, t => t
  | n + 1, t =>
    match findRegion RE_FOOTER_pat t with
    | none => t
    | some (pre, opn, _, cls, post) => pre ++ opn ++ nav ++ cls ++ footerSubAux nav n post

/-- Source `RE_FOOTER.sub(lambda m: open + nav_html + close, html)`
(line 269): every non-overlapping footer region, scanned left to right, has
its inner content replaced by `nav`; the replacement function keeps the
matched open and close tags, so no template escape processing applies. -/
def footerSubAll (nav t : List Char) : List Char :=
  footerSubAux nav t.length t

/-! ## Script-tag removal patterns -/

/-- Scan of an open-tag interior `w` for `\bsrc="v"` with `valOk v`; the
value ends at the first `"` after the opening quote. `prev` is the
character before the scanned text (the final `t` of `<script`). -/
def srcAttrOkAux (valOk : List Char → Bool) : Char → List Char → Bool
  | _, [] => false
  | prev, c :: cs =>
    (!isWordChar prev && ciLead (c :: cs) "src=\"".data &&
      (match splitAtChar '"' ((c :: cs).drop 5) with
       | some (v, _) => valOk v
       | none => false))
    || srcAttrOkAux valOk c cs

/-- Length of the leading whitespace run (`\s*`, greedy). -/
def countWs : List Char → Nat
  | [] => 0
  | c :: cs => if isPySpace c then countWs cs + 1 else 0

/-- Length of a script-removal core match starting exactly at the head of
`t`: `<script[^>]*\bsrc="v"[^>]*>\s*</script>\s*` with `valOk v`. -/
def scriptCoreAt (valOk : List Char → Bool) (t : List Char) : Option Nat :=
  if ciLead t "<script".data then
    match splitAtChar '>' (t.drop 7) with
    | none => none
    | some (w, afterGt) =>
      if srcAttrOkAux valOk 't' w then
        let k := countWs afterGt
        let rest := afterGt.drop k
        if ciLead rest "</script>".data then
          some (7 + w.length + 1 + k + 9 + countWs (rest.drop 9))
        else none
      else none
  else none

/-- Scan helper of `findScriptTag`: first core match, then the leading
`\s*` of the pattern extends the match left over the whitespace run
immediately before the core (which is where the leftmost matching start
position lies). -/
def findScriptTagAux (valOk : List Char → Bool) : List Char → List Char →
    Option (List Char × List Char × List Char)
  | _, [] => none
  | acc, c :: cs =>
    match scriptCoreAt valOk (c :: cs) with
    | some k =>
      let wsn := countWs acc
      some ((acc.drop wsn).reverse,
            (acc.take wsn).reverse ++ (c :: cs).take k,
            (c :: cs).drop k)
    | none => findScriptTagAux valOk (c :: acc) cs

/-- Leftmost match of a script-removal pattern: text before, matched slice,
text after. -/
def findScriptTag (valOk : List Char → Bool) (t : List Char) :
    Option (List Char × List Char × List Char) :=
  findScriptTagAux valOk [] t

/-- Fuelled core of `subScriptAll`. -/
def subScriptAux (valOk : List Char → Bool) : Nat → List Char → List Char
  | 0, t => t
  | n + 1, t =>
    match findScriptTag valOk t with
    | none => t
    | some (pre, _, rest) => pre ++ '\n' :: subScriptAux valOk n rest

/-- `pattern.sub("\n", html)` for a script-removal pattern: every
non-overlapping match, scanned left to right, is replaced by a newline. -/
def subScriptAll (valOk : List Char → Bool) (t : List Char) : List Char :=
  subScriptAux valOk t.length t

/-- Value predicate of `RE_DECKJS` (lines 38-41): the `src` equals the fixed
legacy runtime path. -/
def deckjsVal (v : List Char) : Bool :=
  ciEqL v "../assets/deck.js".data

/-- An occurrence of `lit` after which the value either ends or continues
with a query string (`(?:\?[^"]*)?` reaching the closing quote). -/
def hasLitOptQuery (lit : List Char) : List Char → Bool
  | [] => false
  | c :: cs =>
    (ciLead (c :: cs) lit &&
      (match (c :: cs).drop lit.length with
       | [] => true
       | d :: _ => d = '?'))
    || hasLitOptQuery lit cs

/-- Value predicate of `RE_ANY_MATH_LOADER` (lines 52-55): any `src` whose
value reaches one of the two math-setup file names, optionally followed by a
query string. -/
def mathLoaderVal (v : List Char) : Bool :=
  hasLitOptQuery "math-katex-setup.js".data v
    || hasLitOptQuery "math-mathjax-setup.js".data v

/-- Source `remove_script_tag_by_src(html, slide_path, raw_src)`
(lines 192-218). The two-element Python set of candidates is iterated
raw-then-resolved (set order is unspecified in the source; the two
removals commute on realistic inputs). -/
def remove_script_tag_by_src (html : List Char) (slideFile : List String)
    (rawSrc : String) : List Char :=
  let s := pyStrip rawSrc
  if s = "" then html
  else
    let cands : List String :=
      if isPassthrough s then [s]
      else
        let r := resolve_script_src slideFile s
        if r = s then [s] else [s, r]
    cands.foldl (fun h c => subScriptAll (fun v => ciEqL v c.data) h) html

/-! ## Auto-block upsert (`upsert_auto_scripts`, lines 220-231) -/

/-- Leftmost match of `RE_AUTO_SCRIPTS` (lines 46-49): the first begin
marker followed by an end marker; the lazy middle reaches the first end
marker after it. Returns text before, matched begin marker, middle, matched
end marker, text after. -/
def findAutoBlock (t : List Char) :
    Option (List Char × List Char × List Char × List Char × List Char) :=
  match splitFirstCI AUTO_SCRIPTS_BEGIN.data t with
  | none => none
  | some (pre, bm, rest) =>
    match splitFirstCI AUTO_SCRIPTS_END.data rest with
    | none => none
    | some (mid, em, post) => some (pre, bm, mid, em, post)

/-- Source `upsert_auto_scripts(html, block)` (lines 220-231): replace the
first existing block in place (`count=1`), else insert before the first
`</body>` (case-insensitive), else append at end of file. The `re.sub`
template escape processing is not modelled; blocks built by the source
contain no backslash. -/
def upsert_auto_scripts (html block : List Char) : List Char :=
  match findAutoBlock html with
  | some (pre, _, _, _, post) => pre ++ block ++ post
  | none =>
    match splitFirstCI "</body>".data html with
    | some (pre, bm, rest) => pre ++ "\n    ".data ++ block ++ "\n  ".data ++ bm ++ rest
    | none => html ++ '\n' :: block ++ ['\n']

/-! ## Navigation footer content and the per-slide rewrite
(`update_slide_file`, lines 233-275) -/

/-- The four `nav_lines` of `update_slide_file` (lines 259-264). -/
def navLines (slideFile : List String) (prevFile nextFile : Option (List String))
    (idx total : Nat) : List String :=
  let prev_href := match prevFile with | some p => rel_href slideFile p | none => "#"
  let next_href := match nextFile with | some p => rel_href slideFile p | none => "#"
  let index_href := rel_href slideFile ["index.html"]
  ["      <a class=\"nav-prev\" href=\"" ++ prev_href ++ "\""
      ++ (if prevFile.isSome then "" else " aria-disabled=\"true\"") ++ ">‹ Prev</a>",
   "      <a class=\"nav-index\" href=\"" ++ index_href ++ "\">Index</a>",
   "      <a class=\"nav-next\" href=\"" ++ next_href ++ "\""
      ++ (if nextFile.isSome then "" else " aria-disabled=\"true\"") ++ ">Next ›</a>",
   "      <span class=\"nav-counter\">" ++ toString idx ++ "/" ++ toString total ++ "</span>"]

/-- The `nav_html` string of `update_slide_file` (line 265). -/
def navHtml (slideFile : List String) (prevFile nextFile : Option (List String))
    (idx total : Nat) : List Char :=
  '\n' :: joinSep ['\n'] ((navLines slideFile prevFile nextFile idx total).map String.data)
    ++ "\n    ".data

/-- The fatal message of the missing-footer check (line 268). -/
def missingFooterMsg (slidePathStr : String) : String :=
  slidePathStr ++ ": missing <footer class=\"slide-nav\" data-auto-nav>...</footer>"

/-- The footer rewrite step of `update_slide_file` (lines 267-269): fatal
when the search finds no footer region, otherwise replace the inner content
of every footer region. -/
def footer_step (slidePathStr : String) (nav : List Char) (html : List Char) :
    Except String (List Char) :=
  match findRegion RE_FOOTER_pat html with
  | none => .error (missingFooterMsg slidePathStr)
  | some _ => .ok (footerSubAll nav html)

/-- Component list of a manifest `file` entry relative to the deck root. -/
def slideFileComps (s : Slide) : List String :=
  splitComps s.file

/-- The pure text transformation of `update_slide_file` (lines 233-275)
between `read_text` and `write_text`: legacy loader removal, math loader
removal, declared-script removal, footer rewrite, auto-block upsert. -/
def update_slide_text (slideFile : List String)
    (prevF nextF : Option (List String)) (idx total : Nat)
    (cfg : DeckMathCfg) (slide : Slide) (html : List Char) :
    Except String (List Char) := do
  let h1 := subScriptAll deckjsVal html
  let h2 := subScriptAll mathLoaderVal h1
  let h3 := slide.scripts.foldl
    (fun h sp => remove_script_tag_by_src h slideFile sp.src) h2
  let nav := navHtml slideFile prevF nextF idx total
  let h4 ← footer_step (joinRel slideFile) nav h3
  let block ← build_auto_scripts_block slideFile cfg slide
  pure (upsert_auto_scripts h4 block.data)

/-! ## Print-page image rewriting (`rewrite_img_srcs`, lines 77-86) -/

/-- Test of `s.startswith(ABS_PREFIXES)` over a character list. -/
def startsWithAbsL (s : List Char) : Bool :=
  ABS_PREFIXES.any (fun p => startsWithL s p.data)

/-- Greedy scan of the `[^>]*\ssrc="` part of the `<img>` pattern: walk the
region after `<img` up to the first `>`, and return the last offset carrying
a whitespace character followed by `src="` and a non-empty quote-delimited
value (the greedy `[^>]*` makes the Python engine select exactly this
occurrence). Returns the offset, the value, and the text after the closing
quote. -/
def imgScanUAux : Nat → List Char → Option (Nat × List Char × List Char)
  | _, [] => none
  | i, c :: cs =>
    if c = '>' then none
    else
      let here : Option (Nat × List Char × List Char) :=
        if isPySpace c && ciLead cs "src=\"".data then
          match splitAtChar '"' (cs.drop 5) with
          | some (v, rest) => if v.isEmpty then none else some (i, v, rest)
          | none => none
        else none
      match imgScanUAux (i + 1) cs with
      | some r => some r
      | none => here

/-- Scan helper of `findImgTag`. -/
def findImgAux : List Char → List Char → Option (List Char × List Char × List Char × List Char)
  | _, [] => none
  | acc, c :: cs =>
    match
      (if ciLead (c :: cs) "<img".data then
        match imgScanUAux 0 (cs.drop 3) with
        | some (i, v, rest) => some ((c :: cs).take (4 + i + 1 + 5), v, rest)
        | none => none
      else none) with
    | some (g1, v, rest) => some (acc.reverse, g1, v, rest)
    | none => findImgAux (c :: acc) cs

/-- Leftmost match of `(<img[^>]*\ssrc=")([^"]+)(")` (line 86): text before,
first group (open tag through the opening quote), the `src` value, and the
text after the closing quote. -/
def findImgTag (t : List Char) : Option (List Char × List Char × List Char × List Char) :=
  findImgAux [] t

/-- The rewritten image path: `posixpath.normpath(posixpath.join(dir, s))`
(line 84), with the machine-specific absolute prefix of `ROOT` elided, so
the result is given relative to the deck root. -/
def resolvedImg (dir : List String) (s : List Char) : List Char :=
  (joinRel (normComps (dir ++ (splitOnChar '/' s).map String.mk))).data

/-- Fuelled scan of `rewrite_img_srcs`. -/
def rewriteImgsAux (dir : List String) : Nat → List Char → List Char
  | 0, t => t
  | n + 1, t =>
    match findImgTag t with
    | none => t
    | some (pre, g1, v, rest) =>
      let s := pyStripL v
      let newv := if s.isEmpty || startsWithAbsL s then v else resolvedImg dir s
      pre ++ g1 ++ newv ++ '"' :: rewriteImgsAux dir n rest

/-- Source `rewrite_img_srcs(body_html, slide_path)` (lines 77-86): every
`<img>` `src` that is neither empty nor absolute-ish is resolved against the
directory of the slide. -/
def rewrite_img_srcs (body : List Char) (dir : List String) : List Char :=
  rewriteImgsAux dir body.length body

/-! ## Generated artifacts (`build_index`, lines 295-326, and
`build_print`, lines 337-386) -/

/-- The `index.html` content of `build_index` (lines 295-326);
`os.linesep` is a newline on the host platform of the source. -/
def build_index_html (deckTitle theme : String) (slides : List Slide) : String :=
  let items := slides.enum.map (fun p =>
    "        <li><a href=\"" ++ p.2.file ++ "\">" ++ toString (p.1 + 1) ++ ". "
      ++ p.2.title ++ "</a></li>")
  "<!doctype html>\n<html lang=\"en\">\n<head>\n  <meta charset=\"utf-8\" />\n  <meta name=\"viewport\" content=\"width=device-width,initial-scale=1\" />\n  <title>"
    ++ deckTitle
    ++ "</title>\n  <link rel=\"stylesheet\" href=\"assets/base.css\" />\n  <link rel=\"stylesheet\" href=\""
    ++ theme
    ++ "\" />\n</head>\n<body>\n  <div class=\"slide\">\n    <header class=\"slide-header\">\n      <h1 class=\"slide-title\">"
    ++ deckTitle
    ++ "</h1>\n      <hr />\n    </header>\n    <main class=\"slide-body\">\n      <div><a href=\"print.html\">Experimental: Single page for printing (most interactivity disabled, figure/font sizing/placement not preserved).</a></div>\n      <h2>Table of Contents</h2>\n      <ul class = \"bullets\" style=\"list-style-type: none;\">\n"
    ++ String.mk (joinSep ['\n'] (items.map String.data))
    ++ "\n      </ul>\n    </main>\n  </div>\n</body>\n</html>\n"

/-- The filesystem contents of the deck directory: file name (relative to
the deck root) to file content. -/
abbrev FS := List (String × String)

/-- Read a file (`Path.read_text` / `Path.exists`). -/
def fsGet (fs : FS) (p : String) : Option String :=
  (fs.find? (fun e => e.1 == p)).map (fun e => e.2)

/-- Write a file in place (`Path.write_text`). -/
def fsSet : FS → String → String → FS
  | [], p, v => [(p, v)]
  | e :: rest, p, v => if e.1 == p then (p, v) :: rest else e :: fsSet rest p v

/-- The fatal message of the per-slide existence check (line 395). -/
def missingFileMsg (file : String) : String :=
  "Missing slide file: " ++ file

/-- The fatal message of the print-page body extraction (line 344). -/
def missingMainMsg (file : String) : String :=
  file ++ ": missing <main class=\"slide-body\">...</main>"

/-- One print section of `build_print` (lines 346-355): the extracted,
image-rewritten body in the section shell, with the trailing newline of the
template removed by `rstrip`. -/
def printSection (i : Nat) (title : String) (body : List Char) : List Char :=
  ("\n    <section class=\"print-slide\">\n      <header class=\"print-header\">\n        <h2 class=\"print-title\">"
    ++ toString i ++ ". " ++ title
    ++ "</h2>\n      </header>\n      <div class=\"print-body\">\n").data
    ++ body
    ++ "\n      </div>\n    </section>".data

/-- Section extraction loop of `build_print` (lines 338-355), reading each
slide file from the given filesystem state. A slide file missing here is
unreachable after a successful slide loop; it is modelled as an error
carrying the Python `FileNotFoundError` name. -/
def printSections (slides : List (Nat × Slide)) (fs : FS) : Except String (List (List Char)) :=
  match slides with
  | [] => .ok []
  | (k, s) :: rest => do
    let src ← match fsGet fs s.file with
      | none => .error ("FileNotFoundError: " ++ s.file)
      | some c => .ok c
    let body ← match findRegion RE_MAIN_pat src.data with
      | none => .error (missingMainMsg s.file)
      | some (_, _, inner, _, _) => .ok inner
    let rewritten := rewrite_img_srcs body (slideFileComps s).dropLast
    let tail ← printSections rest fs
    pure (printSection (k + 1) s.title rewritten :: tail)

/-- The `print.html` content of `build_print` (lines 337-386). -/
def build_print_model (deckTitle theme : String) (cfg : DeckMathCfg)
    (slides : List Slide) (fs : FS) : Except String String := do
  let sections ← printSections slides.enum fs
  let engine := choose_print_math_engine cfg slides
  let math_script := print_math_script engine
  pure ("<!doctype html>\n<html lang=\"en\">\n<head>\n  <meta charset=\"utf-8\" />\n  <meta name=\"viewport\" content=\"width=device-width,initial-scale=1\" />\n  <title>Print — "
    ++ deckTitle
    ++ "</title>\n  <link rel=\"stylesheet\" href=\"assets/base.css\" />\n  <link rel=\"stylesheet\" href=\""
    ++ theme
    ++ "\" />\n  <link rel=\"stylesheet\" href=\"assets/print.css\" />\n</head>\n<body>\n  <main class=\"print-deck\">\n    <header class=\"print-cover\">\n      <h1 class=\"slide-title\">"
    ++ deckTitle
    ++ "</h1>\n      <p class=\"muted\">Generated by <code>build_deck.py</code>. Use your browser’s Print dialog.</p>\n    </header>\n"
    ++ String.mk (joinSep ['\n'] sections)
    ++ "\n  </main>\n\n"
    ++ math_script
    ++ "</body>\n</html>\n")

/-! ## The driver (`main`, lines 388-403) -/

/-- The `prev_path` of the loop: `ROOT / slides[i-2].file if i > 1 else None`
(line 396; `i` is the 1-based position). -/
def prevPathOf (slides : List Slide) (i : Nat) : Option (List String) :=
  if 1 < i then (slides.get? (i - 2)).map slideFileComps else none

/-- The `next_path` of the loop: `ROOT / slides[i].file if i < total else None`
(line 397; `i` is the 1-based position, `slides[i]` the 0-based successor). -/
def nextPathOf (slides : List Slide) (i total : Nat) : Option (List String) :=
  if i < total then (slides.get? i).map slideFileComps else none

/-- The per-slide loop of `main` (lines 392-398) over the enumerated slide
list (0-based position `k`, 1-based position `k+1`): check existence, then
rewrite in place. An error carries the filesystem state at the moment of
the abort. -/
def mainLoop (cfg : DeckMathCfg) (slides : List Slide) (total : Nat) :
    List (Nat × Slide) → FS → Except (String × FS) FS
  | [], fs => .ok fs
  | (k, s) :: rest, fs =>
    match fsGet fs s.file with
    | none => .error (missingFileMsg s.file, fs)
    | some html =>
      let i := k + 1
      match update_slide_text (slideFileComps s) (prevPathOf slides i)
          (nextPathOf slides i total) i total cfg s html.data with
      | .error e => .error (e, fs)
      | .ok out => mainLoop cfg slides total rest (fsSet fs s.file (String.mk out))

/-- The whole build (`main`, lines 388-403, plus the empty-slide check of
`read_manifest`, line 292): slide loop, then `index.html`, then
`print.html`. An error carries the filesystem state at the abort. -/
def buildModel (deckTitle theme : String) (cfg : DeckMathCfg) (slides : List Slide)
    (fs : FS) : Except (String × FS) FS :=
  if slides.isEmpty then .error ("deck.json has no slides.", fs)
  else
    match mainLoop cfg slides slides.length slides.enum fs with
    | .error e => .error e
    | .ok fs1 =>
      let fs2 := fsSet fs1 "index.html" (build_index_html deckTitle theme slides)
      match build_print_model deckTitle theme cfg slides fs2 with
      | .error e => .error (e, fs2)
      | .ok printHtml => .ok (fsSet fs2 "print.html" printHtml)

/-! ## Concrete build scenarios used by the claim checks -/

/-- A hand-authored slide containing a stray auto-block begin marker with no
end marker before its closing body tag (the body region and footer region
required by the build are present, so the build succeeds on it). -/
def strayBeginSlide : String :=
  "<main class=\"slide-body\">B</main><footer class=\"slide-nav\" data-auto-nav>o</footer><!-- AUTO-SCRIPTS:BEGIN -->AUTHOR</body>"

/-- One-slide manifest over `strayBeginSlide`. -/
def strayBeginDeck : List Slide :=
  [{ file := "s.html", title := "s" }]

/-- Initial filesystem of the stray-begin scenario. -/
def strayBeginFs : FS :=
  [("s.html", strayBeginSlide)]

/-- Run the build twice on the stray-begin scenario: both runs must succeed
and the slide file must differ between the first and the second output. -/
def strayBeginTwiceDiffers : Bool :=
  match buildModel "T" "assets/theme.css" {} strayBeginDeck strayBeginFs with
  | .ok fs1 =>
    match buildModel "T" "assets/theme.css" {} strayBeginDeck fs1 with
    | .ok fs2 => fsGet fs2 "s.html" != fsGet fs1 "s.html"
    | .error _ => false
  | .error _ => false

/-- A three-slide manifest used to evaluate footer navigation. -/
def c3ThreeDeck : List Slide :=
  [{ file := "s1.html", title := "a" },
   { file := "s2.html", title := "b" },
   { file := "s3.html", title := "c" }]

/-- A well-formed slide used by the missing-file scenario. -/
def plainSlide : String :=
  "<main class=\"slide-body\">B</main><footer class=\"slide-nav\" data-auto-nav>o</footer></body>"

/-- Two-slide manifest whose second slide file will be missing on disk. -/
def missingSecondDeck : List Slide :=
  [{ file := "a.html", title := "a" }, { file := "b.html", title := "b" }]

/-- Initial filesystem of the missing-file scenario: only the first slide
exists. -/
def missingSecondFs : FS :=
  [("a.html", plainSlide)]

/-- Run the build on the missing-file scenario: it must abort with the
missing-file message for `b.html`, with `a.html` already rewritten at the
moment of the abort and no index or print page written. -/
def missingSecondAbort : Bool :=
  match buildModel "T" "assets/theme.css" {} missingSecondDeck missingSecondFs with
  | .error (e, fsE) =>
    e == missingFileMsg "b.html"
      && fsGet fsE "a.html" != fsGet missingSecondFs "a.html"
      && fsGet fsE "index.html" == none
      && fsGet fsE "print.html" == none
  | .ok _ => false

/-! ## Supporting lemmas about the scanners -/

theorem ciLead_map_take : ∀ (pat t : List Char), ciLead t pat = true →
    (t.take pat.length).map Char.toLower = pat.map Char.toLower := by
  intro pat
  induction pat with
  | nil => intro t _; simp
  | cons p ps ih =>
    intro t h
    cases t with
    | nil => simp [ciLead] at h
    | cons c cs =>
      simp only [ciLead, Bool.and_eq_true] at h
      obtain ⟨h1, h2⟩ := h
      simp only [List.length_cons, List.take_succ_cons, List.map_cons]
      have hc : c.toLower = p.toLower := by simpa [ciEqc] using h1
      rw [hc, ih cs h2]

theorem ciEqL_of_ciLead (pat t : List Char) (h : ciLead t pat = true) :
    ciEqL (t.take pat.length) pat = true := by
  simp [ciEqL, ciLead_map_take pat t h]

theorem ciLead_ne_nil (p : Char) (ps : List Char) (t : List Char)
    (h : ciLead t (p :: ps) = true) : t ≠ [] := by
  cases t with
  | nil => simp [ciLead] at h
  | cons c cs => simp

theorem splitFirstCIAux_spec (pat : List Char) :
    ∀ (t acc pre m rest : List Char),
      splitFirstCIAux pat acc t = some (pre, m, rest) →
      acc.reverse ++ t = pre ++ m ++ rest ∧ ciEqL m pat = true := by
  intro t
  induction t with
  | nil =>
    intro acc pre m rest h
    simp only [splitFirstCIAux] at h
    by_cases hp : ciLead [] pat = true
    · rw [if_pos hp] at h
      simp only [Option.some.injEq, Prod.mk.injEq] at h
      obtain ⟨rfl, rfl, rfl⟩ := h
      have hpat : pat = [] := by
        cases pat with
        | nil => rfl
        | cons q qs => simp [ciLead] at hp
      subst hpat
      simp [ciEqL]
    · rw [if_neg hp] at h
      exact absurd h (by simp)
  | cons c cs ih =>
    intro acc pre m rest h
    simp only [splitFirstCIAux] at h
    by_cases hp : ciLead (c :: cs) pat = true
    · rw [if_pos hp] at h
      simp only [Option.some.injEq, Prod.mk.injEq] at h
      obtain ⟨rfl, rfl, rfl⟩ := h
      refine ⟨?_, ciEqL_of_ciLead pat (c :: cs) hp⟩
      rw [List.append_assoc, List.take_append_drop]
    · rw [if_neg hp] at h
      have := ih (c :: acc) pre m rest h
      simpa [List.append_assoc] using this

theorem splitFirstCI_spec (pat t pre m rest : List Char)
    (h : splitFirstCI pat t = some (pre, m, rest)) :
    t = pre ++ m ++ rest ∧ ciEqL m pat = true := by
  have := splitFirstCIAux_spec pat t [] pre m rest h
  simpa using this

theorem openTagAt_pos (P : RegionPat) (hP : P.tagLit ≠ []) (t : List Char) (k : Nat)
    (h : openTagAt P t = some k) : 0 < k ∧ t ≠ [] := by
  unfold openTagAt at h
  split at h
  case isTrue hq =>
    split at h
    case h_1 w r hw =>
      split at h
      case isTrue ha =>
        simp only [Option.some.injEq] at h
        subst h
        refine ⟨by omega, ?_⟩
        obtain ⟨p, ps, hpat⟩ : ∃ p ps, P.tagLit = p :: ps := by
          cases hl : P.tagLit with
          | nil => exact absurd hl hP
          | cons p ps => exact ⟨p, ps, rfl⟩
        rw [hpat] at hq
        exact ciLead_ne_nil p ps t hq
      case isFalse ha => exact absurd h (by simp)
    case h_2 => exact absurd h (by simp)
  case isFalse hq => exact absurd h (by simp)

theorem take_ne_nil_of_pos (t : List Char) (k : Nat) (hk : 0 < k) (ht : t ≠ []) :
    t.take k ≠ [] := by
  cases t with
  | nil => exact absurd rfl ht
  | cons c cs =>
    cases k with
    | zero => omega
    | succ n => simp

theorem regionMatchAt_spec (P : RegionPat) (hP : P.tagLit ≠ [])
    (t opn inner cls post : List Char)
    (h : regionMatchAt P t = some (opn, inner, cls, post)) :
    t = opn ++ inner ++ cls ++ post ∧ opn ≠ [] := by
  unfold regionMatchAt at h
  split at h
  case h_1 => exact absurd h (by simp)
  case h_2 k ho =>
    split at h
    case h_1 => exact absurd h (by simp)
    case h_2 inner' cls' post' hs =>
      simp only [Option.some.injEq, Prod.mk.injEq] at h
      obtain ⟨rfl, rfl, rfl, rfl⟩ := h
      have hd := (splitFirstCI_spec P.closeLit (t.drop k) _ _ _ hs).1
      have hpos := openTagAt_pos P hP t k ho
      refine ⟨?_, take_ne_nil_of_pos t k hpos.1 hpos.2⟩
      conv_lhs => rw [← List.take_append_drop k t]
      rw [hd]
      simp [List.append_assoc]

theorem findRegionAux_spec (P : RegionPat) (hP : P.tagLit ≠ []) :
    ∀ (t acc pre opn inner cls post : List Char),
      findRegionAux P acc t = some (pre, opn, inner, cls, post) →
      acc.reverse ++ t = pre ++ opn ++ inner ++ cls ++ post ∧ opn ≠ [] := by
  intro t
  induction t with
  | nil =>
    intro acc pre opn inner cls post h
    simp [findRegionAux] at h
  | cons c cs ih =>
    intro acc pre opn inner cls post h
    simp only [findRegionAux] at h
    cases hr : regionMatchAt P (c :: cs) with
    | some quad =>
      obtain ⟨opn', q2⟩ := quad
      obtain ⟨inner', q3⟩ := q2
      obtain ⟨cls', post'⟩ := q3
      rw [hr] at h
      simp only [Option.some.injEq, Prod.mk.injEq] at h
      obtain ⟨rfl, rfl, rfl, rfl, rfl⟩ := h
      have hd := regionMatchAt_spec P hP (c :: cs) _ _ _ _ hr
      refine ⟨?_, hd.2⟩
      rw [hd.1]
      simp [List.append_assoc]
    | none =>
      rw [hr] at h
      have := ih (c :: acc) pre opn inner cls post h
      simpa [List.append_assoc] using this

theorem findRegion_spec (P : RegionPat) (hP : P.tagLit ≠ [])
    (t pre opn inner cls post : List Char)
    (h : findRegion P t = some (pre, opn, inner, cls, post)) :
    t = pre ++ opn ++ inner ++ cls ++ post ∧ opn ≠ [] := by
  have := findRegionAux_spec P hP t [] pre opn inner cls post h
  simpa using this

theorem findRegion_footer_post_lt (t pre opn inner cls post : List Char)
    (h : findRegion RE_FOOTER_pat t = some (pre, opn, inner, cls, post)) :
    post.length < t.length := by
  have hd := findRegion_spec RE_FOOTER_pat (by simp [RE_FOOTER_pat]) t _ _ _ _ _ h
  have h1 := hd.1
  have h2 : 0 < opn.length := List.length_pos.mpr hd.2
  have := congrArg List.length h1
  simp only [List.length_append] at this
  omega

theorem footerSubAux_fuel (nav : List Char) :
    ∀ (n : Nat) (t : List Char) (m : Nat), t.length ≤ n → t.length ≤ m →
      footerSubAux nav n t = footerSubAux nav m t := by
  intro n
  induction n with
  | zero =>
    intro t m h0 _
    have ht : t = [] := List.length_eq_zero.mp (Nat.le_zero.mp h0)
    subst ht
    cases m with
    | zero => rfl
    | succ m' => simp [footerSubAux, findRegion, findRegionAux]
  | succ n ih =>
    intro t m hn hm
    cases m with
    | zero =>
      have ht : t = [] := List.length_eq_zero.mp (Nat.le_zero.mp hm)
      subst ht
      simp [footerSubAux, findRegion, findRegionAux]
    | succ m' =>
      cases hf : findRegion RE_FOOTER_pat t with
      | none => simp only [footerSubAux, hf]
      | some quint =>
        obtain ⟨pre, q2⟩ := quint
        obtain ⟨opn, q3⟩ := q2
        obtain ⟨inner, q4⟩ := q3
        obtain ⟨cls, post⟩ := q4
        simp only [footerSubAux, hf]
        have hlt := findRegion_footer_post_lt t pre opn inner cls post hf
        have h1 : post.length ≤ n := by omega
        have h2 : post.length ≤ m' := by omega
        rw [ih post m' h1 h2]

theorem footerSubAll_eq (nav t : List Char) :
    footerSubAll nav t =
      match findRegion RE_FOOTER_pat t with
      | none => t
      | some (pre, opn, _, cls, post) =>
        pre ++ opn ++ nav ++ cls ++ footerSubAll nav post := by
  unfold footerSubAll
  cases hl : t.length with
  | zero =>
    have ht : t = [] := List.length_eq_zero.mp hl
    subst ht
    simp [footerSubAux, findRegion, findRegionAux]
  | succ n =>
    cases hf : findRegion RE_FOOTER_pat t with
    | none => simp only [footerSubAux, hf]
    | some quint =>
      obtain ⟨pre, q2⟩ := quint
      obtain ⟨opn, q3⟩ := q2
      obtain ⟨inner, q4⟩ := q3
      obtain ⟨cls, post⟩ := q4
      simp only [footerSubAux, hf]
      have hlt := findRegion_footer_post_lt t pre opn inner cls post hf
      have h1 : post.length ≤ n := by omega
      rw [footerSubAux_fuel nav n post post.length h1 (le_refl _)]

theorem footerSubAll_none (nav t : List Char)
    (h : findRegion RE_FOOTER_pat t = none) : footerSubAll nav t = t := by
  rw [footerSubAll_eq, h]

/-! ## Supporting lemmas about relative-path computation -/

theorem foldl_normStep_clean :
    ∀ (ys : List String) (acc : List String), (∀ c ∈ ys, cleanComp c) →
      List.foldl normStep acc ys = acc ++ ys := by
  intro ys
  induction ys with
  | nil => intro acc _; simp
  | cons c ys ih =>
    intro acc h
    have hc : cleanComp c := h c (by simp)
    have hstep : normStep acc c = acc ++ [c] := by
      simp [normStep, hc.1, hc.2.1, hc.2.2]
    simp only [List.foldl_cons, hstep]
    rw [ih (acc ++ [c]) (fun d hd => h d (by simp [hd]))]
    simp

theorem normComps_clean (l : List String) (h : ∀ c ∈ l, cleanComp c) :
    normComps l = l := by
  unfold normComps
  rw [foldl_normStep_clean l [] h]
  simp

theorem foldl_normStep_pardir :
    ∀ (k : Nat) (acc : List String),
      List.foldl normStep acc (List.replicate k "..") = acc.take (acc.length - k) := by
  intro k
  induction k with
  | zero => intro acc; simp
  | succ k ih =>
    intro acc
    have hstep : normStep acc ".." = acc.dropLast := by simp [normStep]
    simp only [List.replicate_succ, List.foldl_cons, hstep]
    rw [ih acc.dropLast]
    rw [List.dropLast_eq_take, List.length_take]
    rw [List.take_take]
    congr 1
    omega

theorem commonPrefixLen_spec :
    ∀ (a b : List String),
      a.take (commonPrefixLen a b) = b.take (commonPrefixLen a b)
      ∧ commonPrefixLen a b ≤ a.length ∧ commonPrefixLen a b ≤ b.length := by
  intro a
  induction a with
  | nil =>
    intro b
    refine ⟨?_, by simp [commonPrefixLen], by simp [commonPrefixLen]⟩
    cases b <;> simp [commonPrefixLen]
  | cons x xs ih =>
    intro b
    cases b with
    | nil => exact ⟨by simp [commonPrefixLen], by simp [commonPrefixLen], by simp [commonPrefixLen]⟩
    | cons y ys =>
      by_cases hxy : x = y
      · have hc : commonPrefixLen (x :: xs) (y :: ys) = commonPrefixLen xs ys + 1 := by
          simp [commonPrefixLen, hxy]
        obtain ⟨h1, h2, h3⟩ := ih ys
        refine ⟨?_, ?_, ?_⟩
        · rw [hc]
          simp only [List.take_succ_cons]
          rw [hxy, h1]
        · rw [hc]; simp; omega
        · rw [hc]; simp; omega
      · have hc : commonPrefixLen (x :: xs) (y :: ys) = 0 := by
          simp [commonPrefixLen, hxy]
        exact ⟨by rw [hc]; simp, by rw [hc]; simp, by rw [hc]; simp⟩

/-- Navigating from `start` along the relative path computed by
`relpathComps` reaches `target`: the relative-path computation of `rel_href`
is correct. -/
theorem relpath_roundtrip (start target : List String)
    (hs : ∀ c ∈ start, cleanComp c) (ht : ∀ c ∈ target, cleanComp c) :
    normComps (start ++ relpathComps target start) = target := by
  unfold relpathComps normComps
  rw [List.foldl_append, List.foldl_append]
  rw [foldl_normStep_clean start [] hs]
  simp only [List.nil_append]
  rw [foldl_normStep_pardir]
  obtain ⟨h1, h2, h3⟩ := commonPrefixLen_spec target start
  have hi : start.length - (start.length - commonPrefixLen target start)
      = commonPrefixLen target start := by omega
  rw [hi]
  rw [foldl_normStep_clean (target.drop (commonPrefixLen target start))
    (start.take (commonPrefixLen target start))
    (fun c hc => ht c (List.drop_subset _ _ hc))]
  rw [← h1, List.take_append_drop]

/-! ## Claim C2 — path resolution -/

/-- C2 counterexample: the claim states that the repo-root-relative
specifier `assets/x.js`, seen from a slide at `a/b/slide.html`, resolves to
`../assets/x.js`; the source resolves it to the relative path from the
directory `a/b`, which is `../../assets/x.js`. -/
theorem c2_counterexample :
    resolve_script_src ["a", "b", "slide.html"] "assets/x.js" ≠ "../assets/x.js"
    ∧ resolve_script_src ["a", "b", "slide.html"] "assets/x.js" = "../../assets/x.js" := by
  constructor <;> decide

/-- C2 (amended): for a specifier without surrounding whitespace, an
absolute-ish or explicitly relative prefix passes the specifier through
unchanged; a specifier containing a slash is repo-root-relative and is
rewritten to the relative path from the consuming slide directory to the
target (so `assets/x.js` seen from `a/b/slide.html` becomes
`../../assets/x.js`), a computation that is correct in the sense that
navigating from the slide directory along the result reaches the target;
a bare name becomes `./` plus the name. -/
theorem c2_path_resolution (slideFile : List String) (src : String)
    (htrim : pyStrip src = src) :
    (isPassthrough src = true → resolve_script_src slideFile src = src)
    ∧ (isPassthrough src = false → src.data.contains '/' = true →
        resolve_script_src slideFile src = rel_href slideFile (splitComps src))
    ∧ (src ≠ "" → isPassthrough src = false → src.data.contains '/' = false →
        resolve_script_src slideFile src = "./" ++ src)
    ∧ ((∀ c ∈ slideFile.dropLast, cleanComp c) → (∀ c ∈ splitComps src, cleanComp c) →
        normComps (slideFile.dropLast ++ relpathComps (splitComps src) slideFile.dropLast)
          = splitComps src)
    ∧ resolve_script_src ["a", "b", "slide.html"] "assets/x.js" = "../../assets/x.js" := by
  refine ⟨?_, ?_, ?_, ?_, by decide⟩
  · intro hp
    have hne : src ≠ "" := by
      intro hsrc
      rw [hsrc] at hp
      exact absurd hp (by decide)
    simp [resolve_script_src, htrim, hne, hp]
  · intro hp hsl
    have hne : src ≠ "" := by
      intro hsrc
      rw [hsrc] at hsl
      exact absurd hsl (by decide)
    have hsl' : '/' ∈ src.data := by simpa using hsl
    simp [resolve_script_src, htrim, hne, hp, hsl']
  · intro hne hp hsl
    have hsl' : '/' ∉ src.data := by simpa using hsl
    simp [resolve_script_src, htrim, hne, hp, hsl']
  · intro h1 h2
    exact relpath_roundtrip slideFile.dropLast (splitComps src) h1 h2

/-- C2 witness: the three branches evaluated on concrete specifiers from a
slide at `slides/s.html`. -/
theorem c2_witness :
    resolve_script_src ["slides", "s.html"] "https://cdn/x.js" = "https://cdn/x.js"
    ∧ resolve_script_src ["slides", "s.html"] "assets/foo.js"
        = rel_href ["slides", "s.html"] (splitComps "assets/foo.js")
    ∧ resolve_script_src ["slides", "s.html"] "x.js" = "./x.js"
    ∧ normComps (["slides"] ++ relpathComps (splitComps "assets/foo.js") ["slides"])
        = splitComps "assets/foo.js" := by
  refine ⟨?_, ?_, ?_, ?_⟩
  · exact (c2_path_resolution ["slides", "s.html"] "https://cdn/x.js" (by decide)).1
      (by decide)
  · exact (c2_path_resolution ["slides", "s.html"] "assets/foo.js" (by decide)).2.1
      (by decide) (by decide)
  · exact (c2_path_resolution ["slides", "s.html"] "x.js" (by decide)).2.2.1
      (by decide) (by decide) (by decide)
  · exact (c2_path_resolution ["slides", "s.html"] "assets/foo.js" (by decide)).2.2.2.1
      (by decide) (by decide)

/-! ## Claim C4 — closed math-alias set -/

/-- C4 counterexample: an unrecognized alias as the deck-level default
engine does not make the build fail; `choose_slide_math_engine` silently
selects no engine, contradicting the claim that the fatal error occurs also
for deck-level default aliases. -/
theorem c4_counterexample :
    choose_slide_math_engine ⟨some "foo"⟩ none = .ok ""
    ∧ ∀ e, choose_slide_math_engine ⟨some "foo"⟩ none ≠ Except.error e := by
  refine ⟨by decide, ?_⟩
  intro e h
  rw [show choose_slide_math_engine ⟨some "foo"⟩ none = .ok "" from by decide] at h
  exact Except.noConfusion h

/-- C4 (amended): a slide-level math alias outside the recognized set (the
katex/tex family, the mathjax/mj family, the disable values) is a fatal
error naming the bad value; an unrecognized deck-level default engine is
silently treated as no engine (no error, no loader). -/
theorem c4_alias_errors (cfg : DeckMathCfg) (v : String)
    (hne : stripLower v ≠ "")
    (hnr : stripLower v ∉
      (["none", "off", "false", "0", "katex", "tex", "mathjax", "mj"] : List String)) :
    choose_slide_math_engine cfg (some v)
      = .error ("Unknown slide math engine: " ++ pyReprOptStr (some v))
    ∧ ∀ e, stripLower e ∉ (["katex", "tex", "mathjax", "mj"] : List String) →
        choose_slide_math_engine ⟨some e⟩ none = .ok "" := by
  constructor
  · have h1 : stripLower v ∉ (["none", "off", "false", "0"] : List String) := by
      intro h; apply hnr; simp only [List.mem_cons, List.mem_singleton] at h ⊢; tauto
    have h2 : stripLower v ∉ (["katex", "tex"] : List String) := by
      intro h; apply hnr; simp only [List.mem_cons, List.mem_singleton] at h ⊢; tauto
    have h3 : stripLower v ∉ (["mathjax", "mj"] : List String) := by
      intro h; apply hnr; simp only [List.mem_cons, List.mem_singleton] at h ⊢; tauto
    simp [choose_slide_math_engine, hne, h1, h2, h3]
  · intro e he
    have h2 : stripLower e ∉ (["katex", "tex"] : List String) := by
      intro h; apply he; simp only [List.mem_cons, List.mem_singleton] at h ⊢; tauto
    have h3 : stripLower e ∉ (["mathjax", "mj"] : List String) := by
      intro h; apply he; simp only [List.mem_cons, List.mem_singleton] at h ⊢; tauto
    have h0 : stripLower "" = "" := by decide
    simp [choose_slide_math_engine, h0, h2, h3]

/-- C4 witness: a bogus slide-level alias is fatal with a message naming it;
a bogus deck-level default is silent. -/
theorem c4_witness :
    choose_slide_math_engine ⟨none⟩ (some "bogus")
      = .error ("Unknown slide math engine: " ++ pyReprOptStr (some "bogus"))
    ∧ choose_slide_math_engine ⟨some "weird"⟩ none = .ok "" := by
  have h := c4_alias_errors ⟨none⟩ "bogus" (by decide) (by decide)
  exact ⟨h.1, h.2 "weird" (by decide)⟩

/-! ## Claim C5 — per-slide math precedence -/

/-- C5: a present non-empty (after normalisation) slide override wins
outright — a disable value selects no engine regardless of the deck default,
a recognized alias selects its engine; an absent or empty override falls
back to the deck default; when both are absent or empty no engine is
selected; and the auto block built for the empty engine carries no math
loader tag, only the declared script tags. -/
theorem c5_math_precedence :
    (∀ cfg v, stripLower v ∈ (["none", "off", "false", "0"] : List String) →
        choose_slide_math_engine cfg (some v) = .ok "")
    ∧ (∀ cfg v, stripLower v ∈ (["katex", "tex"] : List String) →
        choose_slide_math_engine cfg (some v) = .ok "katex")
    ∧ (∀ cfg v, stripLower v ∈ (["mathjax", "mj"] : List String) →
        choose_slide_math_engine cfg (some v) = .ok "mathjax")
    ∧ (∀ cfg v, stripLower v = "" →
        choose_slide_math_engine cfg (some v) = choose_slide_math_engine cfg none)
    ∧ (∀ cfg, stripLower (cfg.engine.getD "") = "" →
        choose_slide_math_engine cfg none = .ok "")
    ∧ (∀ slideFile scripts, blockTags slideFile "" scripts
        = scripts.map (fun sp => script_tag sp slideFile)) := by
  refine ⟨?_, ?_, ?_, ?_, ?_, ?_⟩
  · intro cfg v hv
    simp only [List.mem_cons, List.not_mem_nil, or_false] at hv
    rcases hv with h | h | h | h <;> simp [choose_slide_math_engine, h]
  · intro cfg v hv
    simp only [List.mem_cons, List.not_mem_nil, or_false] at hv
    rcases hv with h | h <;> simp [choose_slide_math_engine, h]
  · intro cfg v hv
    simp only [List.mem_cons, List.not_mem_nil, or_false] at hv
    rcases hv with h | h <;> simp [choose_slide_math_engine, h]
  · intro cfg v hv
    have h0 : stripLower "" = "" := by decide
    simp [choose_slide_math_engine, hv, h0]
  · intro cfg hcfg
    have h0 : stripLower "" = "" := by decide
    have h2 : stripLower (cfg.engine.getD "") ∉ (["katex", "tex"] : List String) := by
      rw [hcfg]; decide
    have h3 : stripLower (cfg.engine.getD "") ∉ (["mathjax", "mj"] : List String) := by
      rw [hcfg]; decide
    simp only [List.mem_cons, List.mem_singleton] at h2 h3
    push_neg at h2 h3
    simp [choose_slide_math_engine, h0, h2.1, h2.2, h3.1, h3.2]
  · intro slideFile scripts
    simp [blockTags, mathLoaderTag]

/-- C5 witness: a slide-level `" OFF "` override suppresses the deck-level
katex default; an absent override inherits the deck default; with neither,
no engine is selected and the block holds only the declared scripts. -/
theorem c5_witness :
    choose_slide_math_engine ⟨some "katex"⟩ (some " OFF ") = .ok ""
    ∧ choose_slide_math_engine ⟨some "katex"⟩ (some "") = choose_slide_math_engine ⟨some "katex"⟩ none
    ∧ choose_slide_math_engine ⟨none⟩ none = .ok ""
    ∧ blockTags ["s.html"] "" [{ src := "x.js" }]
        = [script_tag { src := "x.js" } ["s.html"]] := by
  refine ⟨?_, ?_, ?_, ?_⟩
  · exact c5_math_precedence.1 ⟨some "katex"⟩ " OFF " (by decide)
  · exact c5_math_precedence.2.2.2.1 ⟨some "katex"⟩ "" (by decide)
  · exact c5_math_precedence.2.2.2.2.1 ⟨none⟩ (by decide)
  · exact c5_math_precedence.2.2.2.2.2 ["s.html"] [{ src := "x.js" }]

/-! ## Claim C6 — print-page math precedence -/

/-- C6: if any slide override is in the mathjax family, or the deck default
is in the mathjax family, the print page selects mathjax; otherwise a katex
deck default selects katex; otherwise no engine — in particular, slide-level
katex overrides alone never select a print engine. The loader tag emitted by
`build_print` follows the selected engine. -/
theorem c6_print_math_precedence :
    (∀ cfg slides, (∃ s ∈ slides,
          lowerStrip (s.math.getD "") ∈ (["mathjax", "mj"] : List String)) →
        choose_print_math_engine cfg slides = "mathjax")
    ∧ (∀ cfg slides, lowerStrip (cfg.engine.getD "") ∈ (["mathjax", "mj"] : List String) →
        choose_print_math_engine cfg slides = "mathjax")
    ∧ (∀ cfg slides, (∀ s ∈ slides,
          lowerStrip (s.math.getD "") ∉ (["mathjax", "mj"] : List String)) →
        lowerStrip (cfg.engine.getD "") ∈ (["katex", "tex"] : List String) →
        choose_print_math_engine cfg slides = "katex")
    ∧ (∀ cfg slides, (∀ s ∈ slides,
          lowerStrip (s.math.getD "") ∉ (["mathjax", "mj"] : List String)) →
        lowerStrip (cfg.engine.getD "") ∉
          (["katex", "tex", "mathjax", "mj"] : List String) →
        choose_print_math_engine cfg slides = "")
    ∧ print_math_script "mathjax"
        = "  <script defer src=\"assets/math-mathjax-setup.js\"></script>\n"
    ∧ print_math_script "katex"
        = "  <script defer src=\"assets/math-katex-setup.js\"></script>\n"
    ∧ print_math_script "" = "" := by
  refine ⟨?_, ?_, ?_, ?_, by decide, by decide, by decide⟩
  · intro cfg slides hex
    have hany : (slides.any
        (fun s => lowerStrip (s.math.getD "") ∈ (["mathjax", "mj"] : List String))) = true := by
      rw [List.any_eq_true]
      obtain ⟨s, hs, hm⟩ := hex
      exact ⟨s, hs, by simpa using hm⟩
    simp only [choose_print_math_engine]
    rw [if_pos (Or.inl hany)]
  · intro cfg slides hm
    simp only [choose_print_math_engine]
    rw [if_pos (Or.inr hm)]
  · intro cfg slides hall hk
    have hany : (slides.any
        (fun s => lowerStrip (s.math.getD "") ∈ (["mathjax", "mj"] : List String))) = false := by
      rw [Bool.eq_false_iff]
      intro hc
      rw [List.any_eq_true] at hc
      obtain ⟨s, hs, hm⟩ := hc
      exact hall s hs (by simpa using hm)
    have hdm : lowerStrip (cfg.engine.getD "") ∉ (["mathjax", "mj"] : List String) := by
      simp only [List.mem_cons, List.not_mem_nil, or_false] at hk ⊢
      rcases hk with h | h <;> simp [h]
    simp only [choose_print_math_engine]
    rw [if_neg (by rw [hany]; simp only [Bool.false_eq_true, false_or]; exact hdm)]
    rw [if_pos hk]
  · intro cfg slides hall hd
    have hany : (slides.any
        (fun s => lowerStrip (s.math.getD "") ∈ (["mathjax", "mj"] : List String))) = false := by
      rw [Bool.eq_false_iff]
      intro hc
      rw [List.any_eq_true] at hc
      obtain ⟨s, hs, hm⟩ := hc
      exact hall s hs (by simpa using hm)
    have hdm : lowerStrip (cfg.engine.getD "") ∉ (["mathjax", "mj"] : List String) := by
      intro h
      apply hd
      simp only [List.mem_cons, List.not_mem_nil, or_false] at h ⊢
      tauto
    have hdk : lowerStrip (cfg.engine.getD "") ∉ (["katex", "tex"] : List String) := by
      intro h
      apply hd
      simp only [List.mem_cons, List.not_mem_nil, or_false] at h ⊢
      tauto
    simp only [choose_print_math_engine]
    rw [if_neg (by rw [hany]; simp only [Bool.false_eq_true, false_or]; exact hdm)]
    rw [if_neg hdk]

/-- C6 witness: slide 2 of 3 requesting mathjax while the deck default is
katex makes the print page select mathjax; a slide-level katex override
alone selects nothing. -/
theorem c6_witness :
    choose_print_math_engine ⟨some "katex"⟩
      [{ file := "a.html", title := "a" },
       { file := "b.html", title := "b", math := some "mathjax" },
       { file := "c.html", title := "c" }] = "mathjax"
    ∧ choose_print_math_engine ⟨none⟩
      [{ file := "a.html", title := "a", math := some "katex" }] = "" := by
  constructor
  · exact c6_print_math_precedence.1 ⟨some "katex"⟩ _
      ⟨{ file := "b.html", title := "b", math := some "mathjax" }, by simp, by decide⟩
  · exact c6_print_math_precedence.2.2.2.1 ⟨none⟩ _
      (by intro s hs; fin_cases hs; decide) (by decide)

/-! ## Claim C8 — script-declaration shapes -/

/-- C8 counterexample: a bare string directly under the `scripts` key — a
shape outside the three shapes listed by the claim (legacy `script` string,
list, empty/absent) — is accepted by `normalize_scripts` instead of raising
the fatal error the claim requires for any other shape. -/
theorem c8_counterexample :
    normalize_scripts (some (.jstr "x.js")) none = .ok [{ src := "x.js" }]
    ∧ ∀ e, normalize_scripts (some (.jstr "x.js")) none ≠ Except.error e := by
  refine ⟨by decide, ?_⟩
  intro e h
  rw [show normalize_scripts (some (.jstr "x.js")) none = .ok [{ src := "x.js" }]
    from by decide] at h
  exact Except.noConfusion h

/-- C8 (amended): a `scripts` list is validated entry-wise; a non-list,
non-null `scripts` value is wrapped into a one-element list and validated
the same way (so a bare string or valid object under `scripts` is
accepted); the legacy `script` value is used only when truthy, as a single
entry; a string entry is accepted as-is, and an entry that is neither a
string nor an object with a string `src` is a fatal error whose message
names the entry. -/
theorem c8_script_shapes :
    (∀ sf xs, normalize_scripts (some (.jarr xs)) sf = toScriptSpecs xs)
    ∧ (∀ sf v, v ≠ .jnull → (∀ ys, v ≠ .jarr ys) →
        normalize_scripts (some v) sf = toScriptSpecs [v])
    ∧ (∀ v, truthy v = true → normalize_scripts none (some v) = toScriptSpecs [v])
    ∧ (∀ v, truthy v = false → normalize_scripts none (some v) = .ok [])
    ∧ normalize_scripts none none = .ok []
    ∧ (∀ s, toScriptSpec (.jstr s) = .ok { src := s })
    ∧ (∀ v, (∀ s, v ≠ .jstr s) → (∀ fs, v ≠ .jobj fs) →
        toScriptSpec v = .error ("Invalid script entry in deck.json: " ++ reprJ v))
    ∧ (∀ fs, (∀ s, jLookup fs "src" ≠ some (.jstr s)) →
        toScriptSpec (.jobj fs)
          = .error ("Invalid script entry in deck.json: " ++ reprJ (.jobj fs))) := by
  refine ⟨?_, ?_, ?_, ?_, rfl, fun s => rfl, ?_, ?_⟩
  · intro sf xs; rfl
  · intro sf v hnull harr
    cases v with
    | jnull => exact absurd rfl hnull
    | jarr ys => exact absurd rfl (harr ys)
    | jbool b => rfl
    | jnum n => rfl
    | jstr s => rfl
    | jobj fs => rfl
  · intro v hv
    cases v <;> simp_all [normalize_scripts, truthy, toScriptSpecs]
  · intro v hv
    cases v <;> simp_all [normalize_scripts, truthy, toScriptSpecs]
  · intro v hstr hobj
    cases v with
    | jstr s => exact absurd rfl (hstr s)
    | jobj fs => exact absurd rfl (hobj fs)
    | jnull => rfl
    | jbool b => rfl
    | jnum n => rfl
    | jarr ys => rfl
  · intro fs hsrc
    cases hl : jLookup fs "src" with
    | none => simp [toScriptSpec, hl]
    | some v =>
      cases v with
      | jstr s => exact absurd hl (hsrc s)
      | jnull => simp [toScriptSpec, hl]
      | jbool b => simp [toScriptSpec, hl]
      | jnum n => simp [toScriptSpec, hl]
      | jarr ys => simp [toScriptSpec, hl]
      | jobj gs => simp [toScriptSpec, hl]

/-- C8 witness: list shape, wrapped object shape, truthy legacy string, and
an invalid numeric entry with its naming error message, all evaluated. -/
theorem c8_witness :
    normalize_scripts (some (.jarr [.jstr "a.js", .jnum 7])) none
      = toScriptSpecs [.jstr "a.js", .jnum 7]
    ∧ normalize_scripts (some (.jobj [("src", .jstr "o.js")])) none
      = toScriptSpecs [.jobj [("src", .jstr "o.js")]]
    ∧ normalize_scripts none (some (.jstr "leg.js")) = toScriptSpecs [.jstr "leg.js"]
    ∧ normalize_scripts none (some (.jstr "")) = .ok []
    ∧ toScriptSpec (.jnum 7) = .error ("Invalid script entry in deck.json: " ++ reprJ (.jnum 7)) := by
  refine ⟨?_, ?_, ?_, ?_, ?_⟩
  · exact c8_script_shapes.1 none [.jstr "a.js", .jnum 7]
  · exact c8_script_shapes.2.1 none (.jobj [("src", .jstr "o.js")])
      (by intro h; exact JVal.noConfusion h) (by intro ys h; exact JVal.noConfusion h)
  · exact c8_script_shapes.2.2.1 (.jstr "leg.js") (by decide)
  · exact c8_script_shapes.2.2.2.1 (.jstr "") (by decide)
  · exact c8_script_shapes.2.2.2.2.2.2.1 (.jnum 7)
      (by intro s h; exact JVal.noConfusion h) (by intro fs h; exact JVal.noConfusion h)

/-! ## Claim C9 — auto-block upsert placement -/

/-- C9: when a begin/end-delimited block exists (leftmost occurrence), the
whole block region is replaced by the fresh block and the text before and
after the matched region is unchanged; when no block exists but a closing
body marker does, the fresh block is inserted immediately before the
(first) marker; and with neither, the block is appended at end of file. -/
theorem c9_upsert_placement :
    (∀ html block pre bm mid em post,
        findAutoBlock html = some (pre, bm, mid, em, post) →
        upsert_auto_scripts html block = pre ++ block ++ post
        ∧ html = pre ++ bm ++ mid ++ em ++ post
        ∧ ciEqL bm AUTO_SCRIPTS_BEGIN.data = true
        ∧ ciEqL em AUTO_SCRIPTS_END.data = true)
    ∧ (∀ html block pre bm rest,
        findAutoBlock html = none →
        splitFirstCI "</body>".data html = some (pre, bm, rest) →
        upsert_auto_scripts html block
          = pre ++ "\n    ".data ++ block ++ "\n  ".data ++ bm ++ rest
        ∧ html = pre ++ bm ++ rest
        ∧ ciEqL bm "</body>".data = true)
    ∧ (∀ html block,
        findAutoBlock html = none →
        splitFirstCI "</body>".data html = none →
        upsert_auto_scripts html block = html ++ '\n' :: block ++ ['\n']) := by
  refine ⟨?_, ?_, ?_⟩
  · intro html block pre bm mid em post h
    refine ⟨by simp only [upsert_auto_scripts, h], ?_⟩
    unfold findAutoBlock at h
    split at h
    case h_1 => exact absurd h (by simp)
    case h_2 pre' bm' rest0 hsB =>
      split at h
      case h_1 => exact absurd h (by simp)
      case h_2 mid' em' post' hsE =>
        simp only [Option.some.injEq, Prod.mk.injEq] at h
        obtain ⟨rfl, rfl, rfl, rfl, rfl⟩ := h
        obtain ⟨hdB, hciB⟩ := splitFirstCI_spec _ html _ _ _ hsB
        obtain ⟨hdE, hciE⟩ := splitFirstCI_spec _ rest0 _ _ _ hsE
        refine ⟨?_, hciB, hciE⟩
        rw [hdB, hdE]
        simp [List.append_assoc]
  · intro html block pre bm rest h hs
    obtain ⟨hd, hci⟩ := splitFirstCI_spec _ html _ _ _ hs
    exact ⟨by simp only [upsert_auto_scripts, h, hs], hd, hci⟩
  · intro html block h hs
    simp only [upsert_auto_scripts, h, hs]

/-- C9 witness: the three placements evaluated on concrete texts. -/
theorem c9_witness :
    upsert_auto_scripts
      "A<!-- AUTO-SCRIPTS:BEGIN -->old<!-- AUTO-SCRIPTS:END -->B</body>".data "NEW".data
      = "A".data ++ "NEW".data ++ "B</body>".data
    ∧ upsert_auto_scripts "A</body>C".data "NEW".data
      = "A".data ++ "\n    ".data ++ "NEW".data ++ "\n  ".data ++ "</body>".data ++ "C".data
    ∧ upsert_auto_scripts "AC".data "NEW".data = "AC".data ++ '\n' :: "NEW".data ++ ['\n'] := by
  refine ⟨?_, ?_, ?_⟩
  · exact (c9_upsert_placement.1
      "A<!-- AUTO-SCRIPTS:BEGIN -->old<!-- AUTO-SCRIPTS:END -->B</body>".data "NEW".data
      "A".data "<!-- AUTO-SCRIPTS:BEGIN -->".data "old".data "<!-- AUTO-SCRIPTS:END -->".data
      "B</body>".data (by decide)).1
  · exact (c9_upsert_placement.2.1 "A</body>C".data "NEW".data
      "A".data "</body>".data "C".data (by decide) (by decide)).1
  · exact c9_upsert_placement.2.2 "AC".data "NEW".data (by decide) (by decide)

/-! ## Claim C10 — footer-region multiplicity at the rewriter interface -/

/-- C10: the footer rewrite step fails, with the missing-footer message, if
and only if the text it operates on contains no footer region; when the
text contains two (or more) footer regions, no error is raised and every
matched region receives the same replacement inner content. -/
theorem c10_footer_multiplicity :
    (∀ sp nav html, (∃ e, footer_step sp nav html = .error e)
        ↔ findRegion RE_FOOTER_pat html = none)
    ∧ (∀ sp nav html, findRegion RE_FOOTER_pat html = none →
        footer_step sp nav html = .error (missingFooterMsg sp))
    ∧ (∀ sp nav html pre opn inner cls post pre2 opn2 inner2 cls2 post2,
        findRegion RE_FOOTER_pat html = some (pre, opn, inner, cls, post) →
        findRegion RE_FOOTER_pat post = some (pre2, opn2, inner2, cls2, post2) →
        findRegion RE_FOOTER_pat post2 = none →
        footer_step sp nav html
          = .ok (pre ++ opn ++ nav ++ cls ++ (pre2 ++ opn2 ++ nav ++ cls2 ++ post2))) := by
  refine ⟨?_, ?_, ?_⟩
  · intro sp nav html
    constructor
    · intro hex
      obtain ⟨e, he⟩ := hex
      unfold footer_step at he
      cases hf : findRegion RE_FOOTER_pat html with
      | none => rfl
      | some q =>
        rw [hf] at he
        exact absurd he (by simp)
    · intro hf
      exact ⟨missingFooterMsg sp, by simp only [footer_step, hf]⟩
  · intro sp nav html hf
    simp only [footer_step, hf]
  · intro sp nav html pre opn inner cls post pre2 opn2 inner2 cls2 post2 h1 h2 h3
    simp only [footer_step, h1]
    rw [footerSubAll_eq, h1]
    dsimp only
    rw [footerSubAll_eq, h2]
    dsimp only
    rw [footerSubAll_none nav post2 h3]

/-- C10 witness: a text holding two footer regions is rewritten without an
error, both regions receiving the same inner content; a text with no footer
region yields the missing-footer error. -/
theorem c10_witness :
    footer_step "s.html" "N".data
      "x<footer class=\"slide-nav\" data-auto-nav>a</footer>y<footer class=\"slide-nav\" data-auto-nav>b</footer>z".data
      = .ok ("x".data ++ "<footer class=\"slide-nav\" data-auto-nav>".data ++ "N".data
          ++ "</footer>".data
          ++ ("y".data ++ "<footer class=\"slide-nav\" data-auto-nav>".data ++ "N".data
              ++ "</footer>".data ++ "z".data))
    ∧ footer_step "s.html" "N".data "<p>no footer</p>".data
      = .error (missingFooterMsg "s.html") := by
  constructor
  · exact c10_footer_multiplicity.2.2 "s.html" "N".data _
      "x".data "<footer class=\"slide-nav\" data-auto-nav>".data "a".data "</footer>".data
      ("y<footer class=\"slide-nav\" data-auto-nav>b</footer>z".data)
      "y".data "<footer class=\"slide-nav\" data-auto-nav>".data "b".data "</footer>".data
      "z".data (by decide) (by decide) (by decide)
  · exact c10_footer_multiplicity.2.1 "s.html" "N".data "<p>no footer</p>".data (by decide)

/-! ## Claim C3 — footer content -/

/-- C3: for a slide at 1-based position `i` of `n`, the footer replacement
consists of exactly four lines — a previous link (placeholder href `#` with
the `aria-disabled` marker when `i = 1`, else the relative href of slide
`i-1`), an index link, a next link (disabled when `i = n`, else the
relative href of slide `i+1`), and the counter `i/n` — and every footer
region of the slide text has its inner content replaced by exactly these
four lines. -/
theorem c3_footer_content (slides : List Slide) (i : Nat) (s : Slide)
    (hs : slides.get? (i - 1) = some s) (h1 : 1 ≤ i) :
    (navLines (slideFileComps s) (prevPathOf slides i) (nextPathOf slides i slides.length)
        i slides.length).length = 4
    ∧ (i = 1 →
        (navLines (slideFileComps s) (prevPathOf slides i)
            (nextPathOf slides i slides.length) i slides.length).get? 0
          = some "      <a class=\"nav-prev\" href=\"#\" aria-disabled=\"true\">‹ Prev</a>")
    ∧ (∀ p, 1 < i → slides.get? (i - 2) = some p →
        (navLines (slideFileComps s) (prevPathOf slides i)
            (nextPathOf slides i slides.length) i slides.length).get? 0
          = some ("      <a class=\"nav-prev\" href=\""
              ++ rel_href (slideFileComps s) (slideFileComps p) ++ "\">‹ Prev</a>"))
    ∧ (navLines (slideFileComps s) (prevPathOf slides i)
          (nextPathOf slides i slides.length) i slides.length).get? 1
        = some ("      <a class=\"nav-index\" href=\""
            ++ rel_href (slideFileComps s) ["index.html"] ++ "\">Index</a>")
    ∧ (i = slides.length →
        (navLines (slideFileComps s) (prevPathOf slides i)
            (nextPathOf slides i slides.length) i slides.length).get? 2
          = some "      <a class=\"nav-next\" href=\"#\" aria-disabled=\"true\">Next ›</a>")
    ∧ (∀ q, i < slides.length → slides.get? i = some q →
        (navLines (slideFileComps s) (prevPathOf slides i)
            (nextPathOf slides i slides.length) i slides.length).get? 2
          = some ("      <a class=\"nav-next\" href=\""
              ++ rel_href (slideFileComps s) (slideFileComps q) ++ "\">Next ›</a>"))
    ∧ (navLines (slideFileComps s) (prevPathOf slides i)
          (nextPathOf slides i slides.length) i slides.length).get? 3
        = some ("      <span class=\"nav-counter\">" ++ toString i ++ "/"
            ++ toString slides.length ++ "</span>")
    ∧ (∀ html pre opn inner cls post,
        findRegion RE_FOOTER_pat html = some (pre, opn, inner, cls, post) →
        findRegion RE_FOOTER_pat post = none →
        footerSubAll (navHtml (slideFileComps s) (prevPathOf slides i)
            (nextPathOf slides i slides.length) i slides.length) html
          = pre ++ opn
              ++ navHtml (slideFileComps s) (prevPathOf slides i)
                  (nextPathOf slides i slides.length) i slides.length
              ++ cls ++ post) := by
  refine ⟨by simp [navLines], ?_, ?_, by simp [navLines], ?_, ?_, by simp [navLines], ?_⟩
  · intro hi
    subst hi
    simp [navLines, prevPathOf]
  · intro p hi hp
    have hpre : prevPathOf slides i = some (slideFileComps p) := by
      unfold prevPathOf
      rw [if_pos hi, hp]
      rfl
    simp only [navLines, hpre, Option.isSome_some, if_true]
    simp only [List.get?]
    rw [String.append_assoc ("      <a class=\"nav-prev\" href=\""
        ++ rel_href (slideFileComps s) (slideFileComps p)) "\"" ""]
    rw [String.append_assoc ("      <a class=\"nav-prev\" href=\""
        ++ rel_href (slideFileComps s) (slideFileComps p)) ("\"" ++ "") ">‹ Prev</a>"]
    rw [show ("\"" ++ "" : String) ++ ">‹ Prev</a>" = "\">‹ Prev</a>" from by decide]
  · intro hi
    have hnext : nextPathOf slides i slides.length = none := by
      simp [nextPathOf, hi]
    simp [navLines, hnext]
  · intro q hi hq
    have hnext : nextPathOf slides i slides.length = some (slideFileComps q) := by
      unfold nextPathOf
      rw [if_pos hi, hq]
      rfl
    simp only [navLines, hnext, Option.isSome_some, if_true]
    simp only [List.get?]
    rw [String.append_assoc ("      <a class=\"nav-next\" href=\""
        ++ rel_href (slideFileComps s) (slideFileComps q)) "\"" ""]
    rw [String.append_assoc ("      <a class=\"nav-next\" href=\""
        ++ rel_href (slideFileComps s) (slideFileComps q)) ("\"" ++ "") ">Next ›</a>"]
    rw [show ("\"" ++ "" : String) ++ ">Next ›</a>" = "\">Next ›</a>" from by decide]
  · intro html pre opn inner cls post hf hn
    rw [footerSubAll_eq, hf]
    dsimp only
    rw [footerSubAll_none _ post hn]

/-- C3 witness: the middle slide of a three-slide deck has a previous link
to slide 1, a next link to slide 3, a `2/3` counter, and a concrete footer
region rewritten to exactly these lines. -/
theorem c3_witness :
    (navLines (slideFileComps { file := "s2.html", title := "b" })
        (prevPathOf c3ThreeDeck 2) (nextPathOf c3ThreeDeck 2 3) 2 3).get? 0
      = some ("      <a class=\"nav-prev\" href=\""
          ++ rel_href (slideFileComps { file := "s2.html", title := "b" })
              (slideFileComps { file := "s1.html", title := "a" }) ++ "\">‹ Prev</a>")
    ∧ (navLines (slideFileComps { file := "s2.html", title := "b" })
        (prevPathOf c3ThreeDeck 2) (nextPathOf c3ThreeDeck 2 3) 2 3).get? 2
      = some ("      <a class=\"nav-next\" href=\""
          ++ rel_href (slideFileComps { file := "s2.html", title := "b" })
              (slideFileComps { file := "s3.html", title := "c" }) ++ "\">Next ›</a>")
    ∧ (navLines (slideFileComps { file := "s2.html", title := "b" })
        (prevPathOf c3ThreeDeck 2) (nextPathOf c3ThreeDeck 2 3) 2 3).get? 3
      = some ("      <span class=\"nav-counter\">" ++ toString 2 ++ "/"
          ++ toString 3 ++ "</span>") := by
  have h := c3_footer_content c3ThreeDeck 2 { file := "s2.html", title := "b" }
    (by decide) (by decide)
  have hlen : c3ThreeDeck.length = 3 := by decide
  refine ⟨?_, ?_, ?_⟩
  · exact h.2.2.1 { file := "s1.html", title := "a" } (by decide) (by decide)
  · have := h.2.2.2.2.2.1 { file := "s3.html", title := "c" }
      (by rw [hlen]; decide) (by decide)
    rw [hlen] at this
    exact this
  · have := h.2.2.2.2.2.2.1
    rw [hlen] at this
    exact this

/-! ## Claim C1 — pipeline idempotence -/

set_option maxRecDepth 40000 in
/-- C1 (code bug): the pipeline is not idempotent. On a deck whose only
slide contains a stray `AUTO-SCRIPTS` begin marker with no end marker, both
builds succeed, but the second build matches the block pattern from the
stray begin marker to the end marker inserted by the first build and
replaces that whole span — deleting the author text between them — so the
slide file is not byte-identical between the first and second run. -/
theorem c1_pipeline_not_idempotent : strayBeginTwiceDiffers = true := by
  decide

/-! ## Claim C7 — abort semantics on a missing slide file -/

set_option maxRecDepth 40000 in
/-- C7 counterexample: on a two-slide manifest whose second slide file is
missing, the build aborts with the missing-file message, but the first
slide file has already been rewritten at the moment of the abort — the
claim that no slide file is mutated is false (the index and print pages are
indeed not written). -/
theorem c7_counterexample : missingSecondAbort = true := by
  decide

/-- C7 (amended): the existence check runs per slide immediately before
that slide is rewritten, so when the missing slide is first in the list the
build aborts with the missing-file message before any mutation; for a
missing slide later in the list, slides before it have already been
rewritten (see the counterexample); in every abort of the slide loop,
neither the index page nor the print page is written — the build returns
exactly the loop state of the abort. -/
theorem c7_abort_semantics :
    (∀ dt th cfg s rest fs, fsGet fs s.file = none →
        buildModel dt th cfg (s :: rest) fs = .error (missingFileMsg s.file, fs))
    ∧ (∀ dt th cfg slides fs e fsE,
        mainLoop cfg slides slides.length slides.enum fs = .error (e, fsE) →
        buildModel dt th cfg slides fs = .error (e, fsE)) := by
  constructor
  · intro dt th cfg s rest fs h
    simp [buildModel, List.enum, List.enumFrom, mainLoop, h]
  · intro dt th cfg slides fs e fsE hml
    cases slides with
    | nil =>
      simp [List.enum, List.enumFrom, mainLoop] at hml
    | cons s rest =>
      simp only [buildModel, List.isEmpty_cons, Bool.false_eq_true, if_false]
      rw [hml]

/-- C7 witness: a one-slide manifest over an empty filesystem aborts with
the missing-file message and the filesystem unchanged. -/
theorem c7_witness :
    buildModel "T" "assets/theme.css" ⟨none⟩ [{ file := "x.html", title := "x" }] []
      = .error (missingFileMsg "x.html", []) := by
  exact c7_abort_semantics.1 "T" "assets/theme.css" ⟨none⟩
    { file := "x.html", title := "x" } [] [] rfl

end BuildDeck
